import Mathlib

/-!
# Verification of the trading-analysis indicator / cache / watchlist core

Shallow embedding of the core of the `Benggoy/trading-analysis` repository:

* `RSICalculator.calculate_rsi` (SMA variant with insufficient-data guard)
  from `src/ultimate_rsi_tracker.py` (the same code appears in
  `src/enhanced_rsi_tracker.py`, which additionally projects the last value);
* `RSICalculator.calculate_rsi` (EMA variant, no guard) from
  `src/indicators/rsi_calculator.py` (identical code in
  `rsi_calculator_compatible.py`, `rsi_calculator_legacy.py`, `rsi_simple.py`);
* `RSICalculator.calculate_moving_averages`, `detect_signals`,
  `detect_divergence`;
* `StockData.get_stock_data` (time-bounded cache over a fallible fetch);
* `UltimateRSITracker.add_stock`, `save_watchlist`, `load_watchlist`.

Floating-point values are modelled as exact rationals (`ℚ`); pandas `NaN`
is modelled as `Option.none` where it can arise and is observable.  Where
IEEE arithmetic produces `+inf` in the code (`rs = avg_gain / 0` with
`avg_gain > 0`), the embedding follows the IEEE limit the code relies on:
`rsi = 100 - 100 / (1 + rs)` evaluates to `100` at `rs = +inf`, so that
branch is embedded as the value `100`.  `0 / 0` is IEEE `NaN` and is
embedded as `none`.
-/

namespace TradingAnalysis

/-! ## Price deltas, gains and losses

`deltas = prices.diff()` has `NaN` at index 0.  The filters
`deltas.where(deltas > 0, 0)` and `-deltas.where(deltas < 0, 0)` send that
`NaN` (whose comparisons are `False`) to `0`, so `gains` and `losses` are
total series of rationals. -/

/-- Embeds `gains[i]` of `deltas.where(deltas > 0, 0)`: the positive part of the
`i`-th price difference, `0` at index 0 (the `NaN` slot of `diff()`). -/
def gainAt (prices : List ℚ) (i : ℕ) : ℚ :=
  if i = 0 then 0
  else
    let d := prices.getD i 0 - prices.getD (i - 1) 0
    if 0 < d then d else 0

/-- Embeds `losses[i]` of `-deltas.where(deltas < 0, 0)`: the negated negative part
of the `i`-th price difference, `0` at index 0. -/
def lossAt (prices : List ℚ) (i : ℕ) : ℚ :=
  if i = 0 then 0
  else
    let d := prices.getD i 0 - prices.getD (i - 1) 0
    if d < 0 then -d else 0

/-- Embeds `xs.rolling(window=period).mean()` at position `i`:
`NaN` (`none`) while fewer than `period` observations are available
(`i + 1 < period`), otherwise the mean of the `period` entries ending at
`i`, i.e. indices `i + 1 - period, …, i`. -/
def rollingMean (xs : ℕ → ℚ) (period : ℕ) (i : ℕ) : Option ℚ :=
  if period ≤ i + 1 then
    some ((((List.range period).map fun j => xs (i + 1 - period + j)).sum) / period)
  else none

/-- The RSI value before `fillna`, at position `i`, for the SMA variant of
`RSICalculator.calculate_rsi` (`src/ultimate_rsi_tracker.py` lines 53-83):
`rs = avg_gains / avg_losses`, `rsi = 100 - 100 / (1 + rs)` under IEEE
semantics (`NaN` ↦ `none`, `rs = +inf` ↦ `rsi = 100`). -/
def rsiRaw (prices : List ℚ) (period : ℕ) (i : ℕ) : Option ℚ :=
  match rollingMean (gainAt prices) period i, rollingMean (lossAt prices) period i with
  | some g, some l =>
      if l = 0 then
        if g = 0 then none        -- rs = 0/0 = NaN, so rsi is NaN
        else some 100             -- rs = +inf, so rsi = 100 - 100/(1+inf) = 100
      else some (100 - 100 / (1 + g / l))
  | _, _ => none

/-- Embeds `RSICalculator.calculate_rsi` from `src/ultimate_rsi_tracker.py`
(lines 53-83): if `len(prices) < period + 1` return a series of `50.0`;
otherwise compute SMA-smoothed average gains/losses over `period`,
`rs = avg_gains / avg_losses`, `rsi = 100 - (100 / (1 + rs))`, and
`fillna(50.0)` (every `NaN` becomes `50`). -/
def calculate_rsi (prices : List ℚ) (period : ℕ) : List ℚ :=
  if prices.length < period + 1 then
    List.replicate prices.length 50
  else
    (List.range prices.length).map fun i => (rsiRaw prices period i).getD 50

/-! ## The EMA variant (`src/indicators/rsi_calculator.py` lines 43-71)

`gain.ewm(span=self.period, adjust=False).mean()` is the recurrence
`y[0] = x[0]`, `y[i] = (1 - α) * y[i-1] + α * x[i]` with
`α = 2 / (span + 1)`.  This variant has no length guard and no `fillna`:
its output can contain `NaN` (modelled as `none`). -/

/-- Tail of the `ewm(adjust=False).mean()` recurrence given the previous
smoothed value. -/
def ewmAux (a : ℚ) (prev : ℚ) : List ℚ → List ℚ
  | [] => []
  | x :: rest =>
      let y := (1 - a) * prev + a * x
      y :: ewmAux a y rest

/-- Embeds `xs.ewm(span=span, adjust=False).mean()`. -/
def ewmMean (span : ℕ) (xs : List ℚ) : List ℚ :=
  match xs with
  | [] => []
  | x :: rest => x :: ewmAux (2 / (span + 1)) x rest

/-- Embeds `RSICalculator.calculate_rsi` from `src/indicators/rsi_calculator.py`
(lines 43-71), EMA smoothing, no insufficient-data guard, no `fillna`:
`rs = avg_gain / avg_loss`, `rsi = 100 - (100 / (1 + rs))` under IEEE
semantics (`0/0 = NaN` ↦ `none`; `g/0 = +inf` for `g > 0` ↦ `rsi = 100`). -/
def calculate_rsi_ema (prices : List ℚ) (period : ℕ) : List (Option ℚ) :=
  let gainsL := (List.range prices.length).map (gainAt prices)
  let lossesL := (List.range prices.length).map (lossAt prices)
  let avg_gain := ewmMean period gainsL
  let avg_loss := ewmMean period lossesL
  (List.range prices.length).map fun i =>
    let g := avg_gain.getD i 0
    let l := avg_loss.getD i 0
    if l = 0 then
      if g = 0 then none
      else some 100
    else some (100 - 100 / (1 + g / l))

/-- Embeds `RSICalculator.calculate_moving_averages` from
`src/ultimate_rsi_tracker.py` (lines 85-91): for each requested period,
the rolling mean series (`NaN` ↦ `none`).  The dict key `f"MA{period}"`
is modelled by the period itself. -/
def calculate_moving_averages (prices : List ℚ) (periods : List ℕ) :
    List (ℕ × List (Option ℚ)) :=
  periods.map fun period =>
    (period, (List.range prices.length).map fun i =>
      rollingMean (fun j => prices.getD j 0) period i)

/-! ## Signal and divergence classification
(`src/indicators/rsi_calculator.py` lines 115-169) -/

/-- Signal labels produced by `RSICalculator.detect_signals`. -/
inductive Signal where
  | BUY
  | SELL
  | HOLD
deriving DecidableEq, Repr

/-- Per-element body of `RSICalculator.detect_signals`
(`src/indicators/rsi_calculator.py` lines 115-138): start with `HOLD`,
then `signals.loc[rsi < 30] = BUY`, then `signals.loc[rsi > 70] = SELL`,
in that order (the masks are applied sequentially). -/
def detectSignal (r : ℚ) : Signal :=
  let s := Signal.HOLD
  let s := if r < 30 then Signal.BUY else s
  let s := if 70 < r then Signal.SELL else s
  s

/-- RSI status labels of `UltimateRSITracker.update_stock_data`
(`src/ultimate_rsi_tracker.py` lines 1032-1038). -/
inductive RsiStatus where
  | Overbought
  | Oversold
  | Neutral
deriving DecidableEq, Repr

/-- Embeds `if rsi > 70: Overbought elif rsi < 30: Oversold else: Neutral`
(`src/ultimate_rsi_tracker.py` lines 1032-1038). -/
def rsiStatus (r : ℚ) : RsiStatus :=
  if 70 < r then RsiStatus.Overbought
  else if r < 30 then RsiStatus.Oversold
  else RsiStatus.Neutral

/-- Divergence labels produced by `RSICalculator.detect_divergence`. -/
inductive Divergence where
  | NONE
  | BULLISH
  | BEARISH
deriving DecidableEq, Repr

/-- The least-squares slope `np.polyfit(range(len(x)), x, 1)[0]` for the
values `ys` at abscissas `0, 1, …, len ys - 1`. -/
def lsSlope (ys : List ℚ) : ℚ :=
  let n : ℚ := ys.length
  let idx := List.range ys.length
  let sx : ℚ := (idx.map fun j => (j : ℚ)).sum
  let sy : ℚ := ys.sum
  let sxy : ℚ := (idx.map fun (j : ℕ) => (j : ℚ) * ys.getD j 0).sum
  let sxx : ℚ := (idx.map fun (j : ℕ) => (j : ℚ) * (j : ℚ)).sum
  (n * sxy - sx * sy) / (n * sxx - sx * sx)

/-- Embeds `xs.rolling(window).apply(lambda x: np.polyfit(range(len(x)), x, 1)[0])`
at position `i`: `NaN` (`none`) while fewer than `window` observations are
available, otherwise the least-squares slope of the `window` entries ending
at `i`. -/
def rollingSlope (xs : List ℚ) (window : ℕ) (i : ℕ) : Option ℚ :=
  if window ≤ i + 1 then
    some (lsSlope ((List.range window).map fun j => xs.getD (i + 1 - window + j) 0))
  else none

/-- Compares `some q < c` with pandas `NaN` semantics: a comparison against `NaN`
(`none`) is `False`. -/
def optLtB (x : Option ℚ) (c : ℚ) : Bool :=
  match x with
  | some q => decide (q < c)
  | none => false

/-- Compares `some q > c` with pandas `NaN` semantics. -/
def optGtB (x : Option ℚ) (c : ℚ) : Bool :=
  match x with
  | some q => decide (c < q)
  | none => false

/-- Per-element body of `RSICalculator.detect_divergence`
(`src/indicators/rsi_calculator.py` lines 140-169): start with `NONE`;
set `BULLISH` where `(price_trend < 0) & (rsi_trend > 0) & (rsi < 40)`;
then set `BEARISH` where `(price_trend > 0) & (rsi_trend < 0) & (rsi > 60)`. -/
def detectDivergence (prices rsi : List ℚ) (window : ℕ) (i : ℕ) : Divergence :=
  let price_trend := rollingSlope prices window i
  let rsi_trend := rollingSlope rsi window i
  let r := rsi.getD i 0
  let d := Divergence.NONE
  let d := if optLtB price_trend 0 && optGtB rsi_trend 0 && decide (r < 40) then
    Divergence.BULLISH else d
  let d := if optGtB price_trend 0 && optLtB rsi_trend 0 && decide (60 < r) then
    Divergence.BEARISH else d
  d

/-! ## Time-bounded price-series cache
(`StockData.get_stock_data`, `src/ultimate_rsi_tracker.py` lines 100-134;
identical logic in `EnhancedStockData.get_stock_data`,
`src/enhanced_rsi_tracker.py` lines 74-108)

The external data source (`yf.Ticker(symbol).history(period)`) is an
oracle: each call to `get_stock_data` is given the outcome the source
would produce at that moment.  The cache `self.cache` is a Python dict
`key ↦ (data, timestamp)`; it is modelled as an association list with
insertion-order-preserving overwrite, exactly the dict's behaviour. -/

/-- Outcome of one call to the external data source: a non-empty history
(`success`), an empty frame (`data.empty`), or a raised exception. -/
inductive FetchOutcome (α : Type) where
  | success (d : α)
  | empty
  | failure
deriving DecidableEq, Repr

/-- Result of one `get_stock_data` call: the returned value (`None` ↦
`none`), the cache dict afterwards, and whether the external source was
actually contacted. -/
structure FetchRes (α : Type) where
  result : Option α
  cache : List (String × α × ℚ)
  fetched : Bool
deriving DecidableEq, Repr

/-- Dict lookup `self.cache[cache_key]` (as `cache_key in self.cache`). -/
def cacheFind (key : String) : List (String × α × ℚ) → Option (α × ℚ)
  | [] => none
  | (k, d, ts) :: rest => if k = key then some (d, ts) else cacheFind key rest

/-- Dict assignment `self.cache[cache_key] = (data, current_time)`:
overwrite in place if the key exists, else append. -/
def cacheStore (key : String) (d : α) (ts : ℚ) :
    List (String × α × ℚ) → List (String × α × ℚ)
  | [] => [(key, d, ts)]
  | (k, d', ts') :: rest =>
      if k = key then (k, d, ts) :: rest
      else (k, d', ts') :: cacheStore key d ts rest

/-- The `try: fetch … except: return None` part of `get_stock_data`:
on success store `(data, current_time)` and return the data; an empty
frame or an exception returns `None` without touching the cache. -/
def fetchAndStore (key : String) (cache : List (String × α × ℚ)) (now : ℚ) :
    FetchOutcome α → FetchRes α
  | FetchOutcome.success d => ⟨some d, cacheStore key d now cache, true⟩
  | FetchOutcome.empty => ⟨none, cache, true⟩
  | FetchOutcome.failure => ⟨none, cache, true⟩

/-- Embeds `StockData.get_stock_data` (`src/ultimate_rsi_tracker.py` lines
100-134): build `cache_key = f"{symbol}_{period}"`; if a cached entry
exists and `current_time - timestamp < self.cache_timeout`, return it
without fetching; otherwise fetch (outcome supplied by the oracle). -/
def get_stock_data (timeout : ℚ) (cache : List (String × α × ℚ))
    (symbol _period : String) (now : ℚ) (fetch : FetchOutcome α) : FetchRes α :=
  let key := symbol ++ "_" ++ _period
  match cacheFind key cache with
  | some (d, ts) =>
      if now - ts < timeout then ⟨some d, cache, false⟩
      else fetchAndStore key cache now fetch
  | none => fetchAndStore key cache now fetch

/-! ## Watchlist add (`UltimateRSITracker.add_stock`,
`src/ultimate_rsi_tracker.py` lines 846-877; same logic in
`RSIStockTracker.add_stock`, `src/rsi_tracker_app.py` lines 268-298) -/

/-- The four exit paths of `add_stock`. -/
inductive AddOutcome where
  | emptyInput
  | duplicate
  | invalidSymbol
  | added
deriving DecidableEq, Repr

/-- Python `str.strip()`: drop leading and trailing whitespace.
Symbol strings are modelled as `List Char`. -/
def pyStrip (s : List Char) : List Char :=
  ((s.dropWhile Char.isWhitespace).reverse.dropWhile Char.isWhitespace).reverse

/-- Python `str.upper()` on the ASCII symbols the tracker handles. -/
def pyUpper (s : List Char) : List Char :=
  s.map Char.toUpper

/-- Embeds `UltimateRSITracker.add_stock`: `symbol = entry.strip().upper()`;
empty input is ignored; a symbol already in the watchlist triggers the
"Duplicate" warning and returns without change; otherwise the symbol is
validated by a `get_stock_data` fetch (outcome supplied by the oracle) —
`None`/empty data rejects it — and on success it is appended and the
watchlist saved. -/
def add_stock (watchlist : List (List Char)) (entry : List Char)
    (fetch : FetchOutcome α) : AddOutcome × List (List Char) :=
  let symbol := pyUpper (pyStrip entry)
  if symbol = [] then (AddOutcome.emptyInput, watchlist)
  else if symbol ∈ watchlist then (AddOutcome.duplicate, watchlist)
  else
    match fetch with
    | FetchOutcome.success _ => (AddOutcome.added, watchlist ++ [symbol])
    | FetchOutcome.empty => (AddOutcome.invalidSymbol, watchlist)
    | FetchOutcome.failure => (AddOutcome.invalidSymbol, watchlist)

/-! ## Watchlist persistence
(`UltimateRSITracker.save_watchlist` / `load_watchlist`,
`src/ultimate_rsi_tracker.py` lines 1095-1111)

`save_watchlist` runs `json.dump(self.watchlist, f)`; `load_watchlist`
runs `self.watchlist = json.load(f)` when the file exists, and falls back
to `[]` on an exception.  The serialisation layer is Python's `json`
library (not repository code), modelled here for a list of strings:
`json.dumps` renders `["a", "b"]` — items separated by `", "`, each string
quoted with `"` and `\` escaped by a backslash — and `json.loads` parses
it back.  (The `json` module also escapes control characters; watchlist
symbols never require other escapes to round-trip, and the decoder below
is only applied to encoder output.)  Strings are modelled as `List Char`. -/

/-- Backslash-escaping of `"` and `\` inside a JSON string body,
as `json.dumps` emits it. -/
def jescape : List Char → List Char
  | [] => []
  | c :: rest =>
      if c = '\"' ∨ c = '\\' then '\\' :: c :: jescape rest
      else c :: jescape rest

/-- One JSON string literal: `"` + escaped body + `"`. -/
def jstring (s : List Char) : List Char :=
  '\"' :: (jescape s ++ ['\"'])

/-- The comma-separated items of a JSON array, with `json.dump`'s default
`", "` separator. -/
def jitems : List (List Char) → List Char
  | [] => []
  | s :: rest =>
      jstring s ++ (if rest = [] then [] else ',' :: ' ' :: jitems rest)

/-- Renders `json.dumps` of a list of strings: `[` + items + `]`. -/
def jrender (l : List (List Char)) : List Char :=
  '[' :: (jitems l ++ [']'])

/-- Parse a JSON string body up to its closing quote, returning the body
and the remaining input.  `\c` is unescaped to `c` (the encoder only ever
emits `\"` and `\\`). -/
def jparseStr : List Char → Option (List Char × List Char)
  | [] => none
  | c :: rest =>
      if c = '\"' then some ([], rest)
      else if c = '\\' then
        match rest with
        | [] => none
        | c2 :: rest2 =>
            match jparseStr rest2 with
            | some (s, rem) => some (c2 :: s, rem)
            | none => none
      else
        match jparseStr rest with
        | some (s, rem) => some (c :: s, rem)
        | none => none

/-- Parse the items of a non-empty JSON array up to and including the
closing `]`, expecting `json.dump`'s exact `", "` separators.  `fuel`
bounds the number of items. -/
def jparseItems : ℕ → List Char → Option (List (List Char))
  | 0, _ => none
  | fuel + 1, cs =>
      match cs with
      | [] => none
      | c :: rest =>
          if c = '\"' then
            match jparseStr rest with
            | some (s, rem) =>
                if rem = [']'] then some [s]
                else
                  match rem with
                  | c1 :: c2 :: rest2 =>
                      if c1 = ',' ∧ c2 = ' ' then
                        match jparseItems fuel rest2 with
                        | some l => some (s :: l)
                        | none => none
                      else none
                  | _ => none
            | none => none
          else none

/-- Parses as `json.loads` does for a list of strings: `[]`, or `[` items `]`. -/
def jparse (cs : List Char) : Option (List (List Char)) :=
  match cs with
  | '[' :: rest =>
      if rest = [']'] then some [] else jparseItems cs.length rest
  | _ => none

/-- Embeds `UltimateRSITracker.save_watchlist` (lines 1105-1111): the file
contents written by `json.dump(self.watchlist, f)`. -/
def save_watchlist (watchlist : List (List Char)) : List Char :=
  jrender watchlist

/-- Embeds `UltimateRSITracker.load_watchlist` (lines 1095-1103): if the file
exists, `self.watchlist = json.load(f)`; a missing file leaves the
current watchlist; an exception (unparseable contents) sets it to `[]`. -/
def load_watchlist (file : Option (List Char)) (current : List (List Char)) :
    List (List Char) :=
  match file with
  | none => current
  | some s =>
      match jparse s with
      | some l => l
      | none => []

/-! ## Helper lemmas -/

/-- Indexing a map over `List.range`. -/
theorem getD_range_map {α : Type} (f : ℕ → α) (n i : ℕ) (hd : α) (h : i < n) :
    ((List.range n).map f).getD i hd = f i := by
  rw [List.getD_eq_getElem?_getD, List.getElem?_map, List.getElem?_range h]
  rfl

/-- Gains are nonnegative. -/
theorem gainAt_nonneg (prices : List ℚ) (i : ℕ) : 0 ≤ gainAt prices i := by
  unfold gainAt
  split
  · exact le_refl 0
  · dsimp only
    split
    · next h => exact le_of_lt h
    · exact le_refl 0

/-- Losses are nonnegative. -/
theorem lossAt_nonneg (prices : List ℚ) (i : ℕ) : 0 ≤ lossAt prices i := by
  unfold lossAt
  split
  · exact le_refl 0
  · dsimp only
    split
    · next h => linarith
    · exact le_refl 0

/-- A rolling mean of a nonnegative series is nonnegative. -/
theorem rollingMean_nonneg (xs : ℕ → ℚ) (period i : ℕ) (h : ∀ j, 0 ≤ xs j)
    {v : ℚ} (hv : rollingMean xs period i = some v) : 0 ≤ v := by
  unfold rollingMean at hv
  split at hv
  · injection hv with hv
    subst hv
    apply div_nonneg
    · apply List.sum_nonneg
      intro x hx
      obtain ⟨j, _, rfl⟩ := List.mem_map.1 hx
      exact h _
    · exact_mod_cast Nat.zero_le period
  · exact absurd hv (by simp)

/-! ## Claim theorems -/

/-- C1 (amended): for any price series shorter than `period + 1`, the
SMA-variant `calculate_rsi` of `src/ultimate_rsi_tracker.py` returns the
neutral value 50.0 for every output element (a series of 50s of the input
length). -/
theorem rsi_insufficient_data_neutral (prices : List ℚ) (period : ℕ)
    (h : prices.length < period + 1) :
    calculate_rsi prices period = List.replicate prices.length 50 := by
  unfold calculate_rsi
  rw [if_pos h]

/-- C1 witness: a 2-element series with period 14 yields `[50, 50]`. -/
theorem rsi_insufficient_data_neutral_witness :
    calculate_rsi [1, 2] 14 = List.replicate (List.length ([1, 2] : List ℚ)) 50 :=
  rsi_insufficient_data_neutral [1, 2] 14 (by decide)

/-- C1 counterexample: the EMA-variant `calculate_rsi` of
`src/indicators/rsi_calculator.py` (also cited by the claim) has no
insufficient-data guard: on the 2-element series `[1, 2]` with period 14
it returns `[NaN, 100]`, not `[50, 50]`. -/
theorem rsi_ema_insufficient_data_not_neutral :
    calculate_rsi_ema [1, 2] 14 = [none, some 100] ∧
    calculate_rsi_ema [1, 2] 14 ≠ [some 50, some 50] := by
  norm_num [calculate_rsi_ema, ewmMean, ewmAux, gainAt, lossAt, List.range_succ]

/-- C4: `detect_signals` (`src/indicators/rsi_calculator.py` lines
115-138) classifies `SELL` iff `rsi > 70`, `BUY` iff `rsi < 30`, and
`HOLD` otherwise; the tracker's status labels
(`src/ultimate_rsi_tracker.py` lines 1032-1038) agree. -/
theorem signal_classification_iff (r : ℚ) :
    (detectSignal r = Signal.SELL ↔ 70 < r) ∧
    (detectSignal r = Signal.BUY ↔ r < 30) ∧
    (detectSignal r = Signal.HOLD ↔ 30 ≤ r ∧ r ≤ 70) ∧
    (rsiStatus r = RsiStatus.Overbought ↔ 70 < r) ∧
    (rsiStatus r = RsiStatus.Oversold ↔ r < 30) ∧
    (rsiStatus r = RsiStatus.Neutral ↔ 30 ≤ r ∧ r ≤ 70) := by
  unfold detectSignal rsiStatus
  rcases lt_or_le 70 r with h70 | h70 <;> rcases lt_or_le r 30 with h30 | h30
  · exact absurd h70 (by linarith)
  · simp [h70, not_lt.mpr h30, not_le.mpr h70]
  · simp [not_lt.mpr h70, h30, not_le.mpr h30]
  · simp [not_lt.mpr h70, not_lt.mpr h30, h30, h70]

/-- C9: `calculate_moving_averages` (`src/ultimate_rsi_tracker.py` lines
85-91): when the price series is shorter than a requested period, every
value of that period's moving-average series is undefined (`NaN`,
modelled `none`). -/
theorem moving_average_absent_when_short (prices : List ℚ) (periods : List ℕ)
    (period : ℕ) (ma : List (Option ℚ))
    (hmem : (period, ma) ∈ calculate_moving_averages prices periods)
    (hshort : prices.length < period) (i : ℕ) :
    ma.getD i none = none := by
  unfold calculate_moving_averages at hmem
  rw [List.mem_map] at hmem
  obtain ⟨p', _, heq⟩ := hmem
  cases heq
  by_cases hi : i < prices.length
  · rw [getD_range_map _ _ _ _ hi]
    unfold rollingMean
    rw [if_neg (by omega)]
  · rw [List.getD_eq_default]
    simpa using by omega

/-- C9 witness: a 3-element series never defines the 20-period MA. -/
theorem moving_average_absent_when_short_witness :
    ([none, none, none] : List (Option ℚ)).getD 1 none = none :=
  moving_average_absent_when_short [1, 2, 3] [20, 50] 20 [none, none, none]
    (by decide) (by decide) 1

/-- The function `calculate_rsi` preserves the length of the input series. -/
theorem calculate_rsi_length (prices : List ℚ) (period : ℕ) :
    (calculate_rsi prices period).length = prices.length := by
  unfold calculate_rsi
  split <;> simp

/-- C2 (amended): for every valid (long-enough) price series, every value
of the SMA-variant `calculate_rsi` of `src/ultimate_rsi_tracker.py` lies
in `[0, 100]`. -/
theorem rsi_bounded (prices : List ℚ) (period : ℕ)
    (hlen : period + 1 ≤ prices.length) :
    ∀ x ∈ calculate_rsi prices period, 0 ≤ x ∧ x ≤ 100 := by
  intro x hx
  unfold calculate_rsi at hx
  rw [if_neg (by omega)] at hx
  rw [List.mem_map] at hx
  obtain ⟨i, _, rfl⟩ := hx
  unfold rsiRaw
  cases hg : rollingMean (gainAt prices) period i with
  | none => norm_num
  | some g =>
    cases hl : rollingMean (lossAt prices) period i with
    | none => norm_num
    | some l =>
      dsimp only
      have hg0 : 0 ≤ g := rollingMean_nonneg _ _ _ (gainAt_nonneg prices) hg
      have hl0 : 0 ≤ l := rollingMean_nonneg _ _ _ (lossAt_nonneg prices) hl
      by_cases hlz : l = 0
      · by_cases hgz : g = 0
        · norm_num [hlz, hgz]
        · norm_num [hlz, hgz]
      · have hlpos : 0 < l := lt_of_le_of_ne hl0 (Ne.symm hlz)
        have hdiv : 0 ≤ g / l := div_nonneg hg0 (le_of_lt hlpos)
        have h1 : (0:ℚ) < 1 + g / l := by linarith
        have hup : 100 / (1 + g / l) ≤ 100 := by
          apply div_le_self (by norm_num) (by linarith)
        have hdn : 0 ≤ 100 / (1 + g / l) := by positivity
        rw [if_neg hlz]
        simp only [Option.getD_some]
        constructor <;> linarith

/-- C2 witness: the last RSI value of `[1, 2, 4]` with period 2 is in
`[0, 100]`. -/
theorem rsi_bounded_witness :
    0 ≤ (calculate_rsi [1, 2, 4] 2).getD 2 0 ∧
    (calculate_rsi [1, 2, 4] 2).getD 2 0 ≤ 100 := by
  have hlen : (calculate_rsi [1, 2, 4] 2).length = 3 := by
    rw [calculate_rsi_length]
    rfl
  have hmem : (calculate_rsi [1, 2, 4] 2).getD 2 0 ∈ calculate_rsi [1, 2, 4] 2 := by
    rw [List.getD_eq_getElem _ _ (by omega)]
    exact List.getElem_mem _
  exact rsi_bounded [1, 2, 4] 2 (by decide) _ hmem

/-- C2 counterexample: the EMA-variant `calculate_rsi` of
`src/indicators/rsi_calculator.py` (also cited by the claim) can emit
`NaN` (`none`), which is not a value in `[0, 100]`: on a constant
16-element series (long enough for period 14) `avg_gain = avg_loss = 0`
everywhere, so `rs = 0/0 = NaN` and every output element is `NaN`. -/
theorem rsi_ema_nan_outside_bounds :
    14 + 1 ≤ (List.replicate 16 (5 : ℚ)).length ∧
    none ∈ calculate_rsi_ema (List.replicate 16 (5 : ℚ)) 14 := by
  constructor
  · norm_num
  · norm_num [calculate_rsi_ema, ewmMean, ewmAux, gainAt, lossAt, List.range_succ]

/-- C3: on a strictly monotonically increasing price series of sufficient
length, `calculate_rsi` (`src/ultimate_rsi_tracker.py`) is total (no
division-by-zero error: the output has the full input length) and every
RSI value with a full window of positive differences saturates to 100. -/
theorem rsi_saturates_on_gains (prices : List ℚ) (period i : ℕ)
    (hp : 1 ≤ period) (hlen : period + 1 ≤ prices.length)
    (hi1 : period ≤ i) (hi2 : i < prices.length)
    (hmono : ∀ j, j < prices.length - 1 →
      prices.getD j 0 < prices.getD (j + 1) 0) :
    (calculate_rsi prices period).length = prices.length ∧
    (calculate_rsi prices period).getD i 0 = 100 := by
  refine ⟨calculate_rsi_length prices period, ?_⟩
  have hgain : ∀ j, 1 ≤ j → j < prices.length → 0 < gainAt prices j := by
    intro j hj1 hj2
    have hd : prices.getD (j - 1) 0 < prices.getD j 0 := by
      have h := hmono (j - 1) (by omega)
      have hjj : j - 1 + 1 = j := by omega
      rwa [hjj] at h
    unfold gainAt
    rw [if_neg (by omega)]
    dsimp only
    rw [if_pos (by linarith)]
    linarith
  have hzero : ∀ j, 1 ≤ j → j < prices.length → lossAt prices j = 0 := by
    intro j hj1 hj2
    have hd : prices.getD (j - 1) 0 < prices.getD j 0 := by
      have h := hmono (j - 1) (by omega)
      have hjj : j - 1 + 1 = j := by omega
      rwa [hjj] at h
    unfold lossAt
    rw [if_neg (by omega)]
    dsimp only
    rw [if_neg (by linarith)]
  unfold calculate_rsi
  rw [if_neg (by omega)]
  rw [getD_range_map _ _ _ _ hi2]
  have hper : period ≤ i + 1 := by omega
  have hloss : rollingMean (lossAt prices) period i = some 0 := by
    unfold rollingMean
    rw [if_pos hper]
    congr 1
    have hall : ((List.range period).map fun j => lossAt prices (i + 1 - period + j)) =
        List.replicate period 0 := by
      rw [List.eq_replicate_iff]
      refine ⟨by simp, ?_⟩
      intro b hb
      obtain ⟨j, hj, rfl⟩ := List.mem_map.1 hb
      rw [List.mem_range] at hj
      exact hzero _ (by omega) (by omega)
    rw [hall, List.sum_replicate]
    simp
  obtain ⟨gval, hgv, hgpos⟩ :
      ∃ g, rollingMean (gainAt prices) period i = some g ∧ 0 < g := by
    unfold rollingMean
    rw [if_pos hper]
    refine ⟨_, rfl, ?_⟩
    apply div_pos
    · apply List.sum_pos
      · intro x hx
        obtain ⟨j, hj, rfl⟩ := List.mem_map.1 hx
        rw [List.mem_range] at hj
        exact hgain _ (by omega) (by omega)
      · have hne : ((List.range period).map
            fun j => gainAt prices (i + 1 - period + j)).length = period := by simp
        intro hcon
        rw [hcon] at hne
        simp at hne
        omega
    · exact_mod_cast Nat.lt_of_lt_of_le Nat.zero_lt_one hp
  unfold rsiRaw
  rw [hgv, hloss]
  dsimp only
  rw [if_pos rfl, if_neg (by exact fun h => absurd h (ne_of_gt hgpos))]
  rfl

/-- C3 witness: `[1, 2, 4, 9]` with period 2 has RSI 100 at the last bar,
and the output length equals the input length. -/
theorem rsi_saturates_on_gains_witness :
    (calculate_rsi [1, 2, 4, 9] 2).length = ([1, 2, 4, 9] : List ℚ).length ∧
    (calculate_rsi [1, 2, 4, 9] 2).getD 3 0 = 100 :=
  rsi_saturates_on_gains [1, 2, 4, 9] 2 3 (by decide) (by decide) (by decide)
    (by decide) (by decide)

/-- Looking up a key right after storing it yields the stored pair. -/
theorem cacheFind_store_self {α : Type} (key : String) (d : α) (ts : ℚ)
    (c : List (String × α × ℚ)) :
    cacheFind key (cacheStore key d ts c) = some (d, ts) := by
  induction c with
  | nil => simp [cacheStore, cacheFind]
  | cons hd tl ih =>
    obtain ⟨k, d', ts'⟩ := hd
    unfold cacheStore
    by_cases hk : k = key
    · simp [hk, cacheFind]
    · simp only [if_neg hk]
      unfold cacheFind
      rw [if_neg hk]
      exact ih

/-- C5: two `get_stock_data` calls for the same key within the timeout
window: the first (on a cold or stale cache) fetches and stores the data;
the second returns the identical cached data with no fetch and leaves the
cache unchanged; a third call after the timeout fetches again and
overwrites the entry with the new data and timestamp. -/
theorem cache_roundtrip {α : Type} (timeout : ℚ) (cache : List (String × α × ℚ))
    (symbol pd : String) (t0 t1 t2 : ℚ) (d d2 : α) (o1 : FetchOutcome α)
    (hmiss : ∀ p : α × ℚ, cacheFind (symbol ++ "_" ++ pd) cache = some p →
      timeout ≤ t0 - p.2)
    (hfresh : t1 - t0 < timeout) (hstale : timeout ≤ t2 - t0) :
    get_stock_data timeout cache symbol pd t0 (FetchOutcome.success d) =
      ⟨some d, cacheStore (symbol ++ "_" ++ pd) d t0 cache, true⟩ ∧
    get_stock_data timeout (cacheStore (symbol ++ "_" ++ pd) d t0 cache)
        symbol pd t1 o1 =
      ⟨some d, cacheStore (symbol ++ "_" ++ pd) d t0 cache, false⟩ ∧
    get_stock_data timeout (cacheStore (symbol ++ "_" ++ pd) d t0 cache)
        symbol pd t2 (FetchOutcome.success d2) =
      ⟨some d2, cacheStore (symbol ++ "_" ++ pd) d2 t2
        (cacheStore (symbol ++ "_" ++ pd) d t0 cache), true⟩ ∧
    cacheFind (symbol ++ "_" ++ pd) (cacheStore (symbol ++ "_" ++ pd) d2 t2
      (cacheStore (symbol ++ "_" ++ pd) d t0 cache)) = some (d2, t2) := by
  refine ⟨?_, ?_, ?_, cacheFind_store_self _ _ _ _⟩
  · unfold get_stock_data
    dsimp only
    cases hf : cacheFind (symbol ++ "_" ++ pd) cache with
    | none => rfl
    | some p =>
      obtain ⟨dd, ts⟩ := p
      dsimp only
      have hst := hmiss _ hf
      rw [if_neg (by simp at hst ⊢; linarith)]
      rfl
  · unfold get_stock_data
    dsimp only
    rw [cacheFind_store_self]
    dsimp only
    rw [if_pos hfresh]
  · unfold get_stock_data
    dsimp only
    rw [cacheFind_store_self]
    dsimp only
    rw [if_neg (by linarith)]
    rfl

/-- C5 witness: concrete run with timeout 60 starting from an empty cache,
calls at times 0, 30 (fresh) and 60 (stale). -/
theorem cache_roundtrip_witness :
    get_stock_data 60 ([] : List (String × ℕ × ℚ)) "AAPL" "5d" 0
        (FetchOutcome.success 7) =
      ⟨some 7, cacheStore ("AAPL" ++ "_" ++ "5d") 7 0 [], true⟩ ∧
    get_stock_data 60 (cacheStore ("AAPL" ++ "_" ++ "5d") 7 0 []) "AAPL" "5d" 30
        FetchOutcome.failure =
      ⟨some 7, cacheStore ("AAPL" ++ "_" ++ "5d") 7 0 [], false⟩ ∧
    get_stock_data 60 (cacheStore ("AAPL" ++ "_" ++ "5d") 7 0 []) "AAPL" "5d" 60
        (FetchOutcome.success 9) =
      ⟨some 9, cacheStore ("AAPL" ++ "_" ++ "5d") 9 60
        (cacheStore ("AAPL" ++ "_" ++ "5d") 7 0 []), true⟩ ∧
    cacheFind ("AAPL" ++ "_" ++ "5d") (cacheStore ("AAPL" ++ "_" ++ "5d") 9 60
      (cacheStore ("AAPL" ++ "_" ++ "5d") 7 0 [])) = some (9, 60) :=
  cache_roundtrip 60 [] "AAPL" "5d" 0 30 60 7 9 FetchOutcome.failure
    (fun p hp => absurd hp (by simp [cacheFind]))
    (by norm_num) (by norm_num)

/-- C10: when the fetch raises or returns an empty result (on a cold or
stale cache), `get_stock_data` returns `None`, leaves the cache unchanged
and no entry is stored, so a following lookup for the same key at any
later time performs a fresh fetch. -/
theorem fetch_failure_not_cached {α : Type} (timeout : ℚ)
    (cache : List (String × α × ℚ)) (symbol pd : String) (t0 t1 : ℚ)
    (o o2 : FetchOutcome α)
    (hmiss : ∀ p : α × ℚ, cacheFind (symbol ++ "_" ++ pd) cache = some p →
      timeout ≤ t0 - p.2)
    (ho : o = FetchOutcome.empty ∨ o = FetchOutcome.failure)
    (ht : t0 ≤ t1) :
    get_stock_data timeout cache symbol pd t0 o = ⟨none, cache, true⟩ ∧
    (get_stock_data timeout cache symbol pd t1 o2).fetched = true := by
  constructor
  · unfold get_stock_data
    dsimp only
    cases hf : cacheFind (symbol ++ "_" ++ pd) cache with
    | none =>
      rcases ho with rfl | rfl <;> rfl
    | some p =>
      obtain ⟨dd, ts⟩ := p
      dsimp only
      have hst := hmiss _ hf
      rw [if_neg (by simp at hst ⊢; linarith)]
      rcases ho with rfl | rfl <;> rfl
  · unfold get_stock_data
    dsimp only
    cases hf : cacheFind (symbol ++ "_" ++ pd) cache with
    | none =>
      cases o2 <;> rfl
    | some p =>
      obtain ⟨dd, ts⟩ := p
      dsimp only
      have hst := hmiss _ hf
      rw [if_neg (by simp at hst ⊢; linarith)]
      cases o2 <;> rfl

/-- C10 witness: an empty fetch at time 0 on an empty cache returns `None`
and stores nothing; a successful lookup at time 1 fetches. -/
theorem fetch_failure_not_cached_witness :
    get_stock_data 60 ([] : List (String × ℕ × ℚ)) "AAPL" "5d" 0
        FetchOutcome.empty = ⟨none, [], true⟩ ∧
    (get_stock_data 60 ([] : List (String × ℕ × ℚ)) "AAPL" "5d" 1
        (FetchOutcome.success 5)).fetched = true :=
  fetch_failure_not_cached 60 [] "AAPL" "5d" 0 1 FetchOutcome.empty
    (FetchOutcome.success 5)
    (fun p hp => absurd hp (by simp [cacheFind]))
    (Or.inl rfl) (by norm_num)

/-- C7: a symbol already present in the watchlist makes `add_stock` a
no-op; with a nonempty symbol it signals the duplicate; and the spec's
scenario: adding "AAPL" twice to an empty watchlist yields one entry and
a duplicate signal on the second call. -/
theorem add_stock_duplicate_noop {α : Type} (watchlist : List (List Char))
    (entry : List Char) (f f2 : FetchOutcome α) (d : α)
    (hmem : pyUpper (pyStrip entry) ∈ watchlist) :
    (add_stock watchlist entry f).2 = watchlist ∧
    (pyUpper (pyStrip entry) ≠ [] →
      add_stock watchlist entry f = (AddOutcome.duplicate, watchlist)) ∧
    add_stock ([] : List (List Char)) "AAPL".toList (FetchOutcome.success d) =
      (AddOutcome.added, ["AAPL".toList]) ∧
    add_stock ["AAPL".toList] "AAPL".toList f2 =
      (AddOutcome.duplicate, ["AAPL".toList]) := by
  have hAAPL : pyUpper (pyStrip "AAPL".toList) = "AAPL".toList := by decide
  refine ⟨?_, ?_, ?_, ?_⟩
  · unfold add_stock
    dsimp only
    by_cases hs : pyUpper (pyStrip entry) = []
    · rw [if_pos hs]
    · rw [if_neg hs, if_pos hmem]
  · intro hs
    unfold add_stock
    dsimp only
    rw [if_neg hs, if_pos hmem]
  · unfold add_stock
    dsimp only
    rw [hAAPL]
    rw [if_neg (by decide), if_neg (by simp)]
    rfl
  · unfold add_stock
    dsimp only
    rw [hAAPL]
    rw [if_neg (by decide), if_pos (by simp)]

/-- C7 witness: "AAPL" already in the watchlist is rejected as a
duplicate and the watchlist is unchanged. -/
theorem add_stock_duplicate_noop_witness :
    (add_stock ["AAPL".toList] "AAPL".toList (FetchOutcome.success 0)).2 =
      ["AAPL".toList] ∧
    (pyUpper (pyStrip "AAPL".toList) ≠ [] →
      add_stock ["AAPL".toList] "AAPL".toList (FetchOutcome.success 0) =
        (AddOutcome.duplicate, ["AAPL".toList])) ∧
    add_stock ([] : List (List Char)) "AAPL".toList
        (FetchOutcome.success (0 : ℕ)) = (AddOutcome.added, ["AAPL".toList]) ∧
    add_stock ["AAPL".toList] "AAPL".toList (FetchOutcome.success (0 : ℕ)) =
      (AddOutcome.duplicate, ["AAPL".toList]) :=
  add_stock_duplicate_noop ["AAPL".toList] "AAPL".toList
    (FetchOutcome.success 0) (FetchOutcome.success 0) 0 (by decide)

/-- C8: with a full trailing window, `detect_divergence` classifies
`BULLISH` exactly when the fitted price trend is negative, the fitted RSI
trend is positive and the current RSI is below 40; `BEARISH` exactly when
the price trend is positive, the RSI trend is negative and the current
RSI is above 60; and `NONE` in every other case. -/
theorem divergence_classification_iff (prices rsi : List ℚ) (window i : ℕ)
    (hw : window ≤ i + 1) :
    (detectDivergence prices rsi window i = Divergence.BULLISH ↔
      (lsSlope ((List.range window).map fun j => prices.getD (i + 1 - window + j) 0) < 0 ∧
       0 < lsSlope ((List.range window).map fun j => rsi.getD (i + 1 - window + j) 0) ∧
       rsi.getD i 0 < 40)) ∧
    (detectDivergence prices rsi window i = Divergence.BEARISH ↔
      (0 < lsSlope ((List.range window).map fun j => prices.getD (i + 1 - window + j) 0) ∧
       lsSlope ((List.range window).map fun j => rsi.getD (i + 1 - window + j) 0) < 0 ∧
       60 < rsi.getD i 0)) ∧
    (detectDivergence prices rsi window i = Divergence.NONE ↔
      (¬ (lsSlope ((List.range window).map fun j => prices.getD (i + 1 - window + j) 0) < 0 ∧
          0 < lsSlope ((List.range window).map fun j => rsi.getD (i + 1 - window + j) 0) ∧
          rsi.getD i 0 < 40) ∧
       ¬ (0 < lsSlope ((List.range window).map fun j => prices.getD (i + 1 - window + j) 0) ∧
          lsSlope ((List.range window).map fun j => rsi.getD (i + 1 - window + j) 0) < 0 ∧
          60 < rsi.getD i 0))) := by
  unfold detectDivergence rollingSlope
  rw [if_pos hw, if_pos hw]
  dsimp only
  generalize lsSlope ((List.range window).map fun j => prices.getD (i + 1 - window + j) 0) = p
  generalize lsSlope ((List.range window).map fun j => rsi.getD (i + 1 - window + j) 0) = q
  generalize rsi.getD i 0 = r
  simp only [optLtB, optGtB, Bool.and_eq_true, decide_eq_true_eq]
  by_cases hbull : (p < 0 ∧ 0 < q) ∧ r < 40 <;>
    by_cases hbear : (0 < p ∧ q < 0) ∧ 60 < r
  · exact absurd hbear.1.1 (by linarith [hbull.1.1])
  · obtain ⟨⟨hp0, hq0⟩, hr40⟩ := hbull
    rw [if_neg hbear, if_pos (by exact ⟨⟨hp0, hq0⟩, hr40⟩)]
    simp only [reduceCtorEq, iff_false, false_iff]
    refine ⟨iff_of_true trivial ⟨hp0, hq0, hr40⟩, ?_, ?_⟩
    · rintro ⟨h4, -, -⟩
      linarith
    · rintro ⟨hnb, -⟩
      exact hnb ⟨hp0, hq0, hr40⟩
  · obtain ⟨⟨hp0, hq0⟩, hr60⟩ := hbear
    rw [if_pos (by exact ⟨⟨hp0, hq0⟩, hr60⟩)]
    simp only [reduceCtorEq, iff_false, false_iff]
    refine ⟨?_, iff_of_true trivial ⟨hp0, hq0, hr60⟩, ?_⟩
    · rintro ⟨h1, -, -⟩
      linarith
    · rintro ⟨-, hnb⟩
      exact hnb ⟨hp0, hq0, hr60⟩
  · rw [if_neg hbear, if_neg hbull]
    simp only [reduceCtorEq, iff_false, false_iff]
    refine ⟨?_, ?_, ?_⟩
    · rintro ⟨h1, h2, h3⟩
      exact hbull ⟨⟨h1, h2⟩, h3⟩
    · rintro ⟨h1, h2, h3⟩
      exact hbear ⟨⟨h1, h2⟩, h3⟩
    · exact iff_of_true trivial
        ⟨fun h => hbull ⟨⟨h.1, h.2.1⟩, h.2.2⟩, fun h => hbear ⟨⟨h.1, h.2.1⟩, h.2.2⟩⟩

/-- C8 witness: falling prices, rising RSI, RSI 30 < 40 over a full
3-bar window is classified BULLISH (and the iff characterisation holds). -/
theorem divergence_classification_iff_witness :
    (detectDivergence [3, 2, 1] [10, 20, 30] 3 2 = Divergence.BULLISH ↔
      (lsSlope ((List.range 3).map fun j => ([3, 2, 1] : List ℚ).getD (2 + 1 - 3 + j) 0) < 0 ∧
       0 < lsSlope ((List.range 3).map fun j => ([10, 20, 30] : List ℚ).getD (2 + 1 - 3 + j) 0) ∧
       ([10, 20, 30] : List ℚ).getD 2 0 < 40)) ∧
    (detectDivergence [3, 2, 1] [10, 20, 30] 3 2 = Divergence.BEARISH ↔
      (0 < lsSlope ((List.range 3).map fun j => ([3, 2, 1] : List ℚ).getD (2 + 1 - 3 + j) 0) ∧
       lsSlope ((List.range 3).map fun j => ([10, 20, 30] : List ℚ).getD (2 + 1 - 3 + j) 0) < 0 ∧
       60 < ([10, 20, 30] : List ℚ).getD 2 0)) ∧
    (detectDivergence [3, 2, 1] [10, 20, 30] 3 2 = Divergence.NONE ↔
      (¬ (lsSlope ((List.range 3).map fun j => ([3, 2, 1] : List ℚ).getD (2 + 1 - 3 + j) 0) < 0 ∧
          0 < lsSlope ((List.range 3).map fun j => ([10, 20, 30] : List ℚ).getD (2 + 1 - 3 + j) 0) ∧
          ([10, 20, 30] : List ℚ).getD 2 0 < 40) ∧
       ¬ (0 < lsSlope ((List.range 3).map fun j => ([3, 2, 1] : List ℚ).getD (2 + 1 - 3 + j) 0) ∧
          lsSlope ((List.range 3).map fun j => ([10, 20, 30] : List ℚ).getD (2 + 1 - 3 + j) 0) < 0 ∧
          60 < ([10, 20, 30] : List ℚ).getD 2 0))) :=
  divergence_classification_iff [3, 2, 1] [10, 20, 30] 3 2 (by decide)

/-- Parsing an escaped string body: the decoder inverts the encoder up to
the closing quote and returns the rest of the input untouched. -/
theorem jparseStr_escape (s rest : List Char) :
    jparseStr (jescape s ++ ('\"' :: rest)) = some (s, rest) := by
  induction s with
  | nil =>
    show jparseStr ('\"' :: rest) = some ([], rest)
    unfold jparseStr
    rw [if_pos rfl]
  | cons c s ih =>
    by_cases hc : c = '\"' ∨ c = '\\'
    · have he : jescape (c :: s) = '\\' :: c :: jescape s := by
        simp [jescape, hc]
      rw [he]
      show jparseStr ('\\' :: (c :: (jescape s ++ '\"' :: rest))) = some (c :: s, rest)
      unfold jparseStr
      rw [if_neg (by decide), if_pos rfl]
      dsimp only
      rw [ih]
    · push_neg at hc
      have he : jescape (c :: s) = c :: jescape s := by
        simp [jescape, hc.1, hc.2]
      rw [he]
      show jparseStr (c :: (jescape s ++ '\"' :: rest)) = some (c :: s, rest)
      unfold jparseStr
      rw [if_neg hc.1, if_neg hc.2]
      rw [ih]

/-- The rendered items of a list are at least as long as the list. -/
theorem jitems_length (l : List (List Char)) : l.length ≤ (jitems l).length := by
  induction l with
  | nil => simp [jitems]
  | cons s l' ih =>
    by_cases h : l' = []
    · subst h
      simp [jitems, jstring]
    · simp only [jitems, jstring, if_neg h, List.length_append, List.length_cons]
      simp only [List.length_cons] at ih ⊢
      omega

/-- With enough fuel, the item parser inverts the item renderer for a
non-empty list. -/
theorem jparseItems_render (l : List (List Char)) :
    ∀ fuel : ℕ, l ≠ [] → l.length ≤ fuel →
      jparseItems fuel (jitems l ++ [']']) = some l := by
  induction l with
  | nil => intro fuel h; exact absurd rfl h
  | cons s l' ih =>
    intro fuel _ hfuel
    obtain ⟨f, rfl⟩ : ∃ f, fuel = f + 1 := by
      cases fuel with
      | zero => simp at hfuel
      | succ f => exact ⟨f, rfl⟩
    cases l' with
    | nil =>
      have harr : jitems [s] ++ [']'] = '\"' :: (jescape s ++ ('\"' :: [']'])) := by
        simp [jitems, jstring]
      rw [harr]
      unfold jparseItems
      dsimp only
      rw [if_pos rfl, jparseStr_escape]
      rfl
    | cons t l2 =>
      have harr : jitems (s :: t :: l2) ++ [']'] =
          '\"' :: (jescape s ++ ('\"' :: (',' :: ' ' :: (jitems (t :: l2) ++ [']'])))) := by
        simp [jitems, jstring]
      rw [harr]
      unfold jparseItems
      dsimp only
      rw [if_pos rfl, jparseStr_escape]
      show (match jparseItems f (jitems (t :: l2) ++ [']']) with
            | some l => some (s :: l)
            | none => none) = some (s :: t :: l2)
      rw [ih f (by simp) (by simp at hfuel ⊢; omega)]

/-- The parser inverts the renderer on every symbol list. -/
theorem jparse_jrender (wl : List (List Char)) : jparse (jrender wl) = some wl := by
  cases wl with
  | nil => rfl
  | cons s l' =>
    unfold jrender
    have hne : jitems (s :: l') ++ [']'] ≠ [']'] := by
      intro h
      have hl := congrArg List.length h
      simp only [List.length_append, List.length_cons, List.length_nil] at hl
      have h2 := jitems_length (s :: l')
      simp only [List.length_cons] at h2
      omega
    unfold jparse
    show (if jitems (s :: l') ++ [']'] = [']'] then some []
      else jparseItems ('[' :: (jitems (s :: l') ++ [']'])).length
        (jitems (s :: l') ++ [']'])) = some (s :: l')
    rw [if_neg hne]
    rw [jparseItems_render (s :: l') _ (by simp) ?_]
    have h2 := jitems_length (s :: l')
    simp only [List.length_cons] at h2 ⊢
    simp only [List.length_append, List.length_cons, List.length_nil]
    omega

/-- C6: `save_watchlist` followed by `load_watchlist` reproduces the exact
ordered sequence of symbol strings, including the empty watchlist
(`src/ultimate_rsi_tracker.py` lines 1095-1111). -/
theorem watchlist_roundtrip (wl current : List (List Char)) :
    load_watchlist (some (save_watchlist wl)) current = wl := by
  unfold load_watchlist save_watchlist
  show (match jparse (jrender wl) with
        | some l => l
        | none => []) = wl
  rw [jparse_jrender]

end TradingAnalysis
